import Mathlib

/-!
# audioabio backend (`backend/index.js`)

A shallow embedding of the Express application: the three in-memory
collections (`users`, `books`, `progressData`), the upload directory that
multer writes to, and one function per route.  Every reading of `Date.now()`
and every bcrypt salt is an explicit input of the request that consumes it.
Request handlers run one after the other, each to completion.
-/

namespace Audioabio

/-! ## External collaborators -/

/-- The object handed to `jwt.sign` in the login route: `{ id, email }`. -/
structure Claims where
  id : String
  email : String
deriving DecidableEq, Repr

/-- The libraries `bcryptjs` and `jsonwebtoken`.  `bcryptHash p salt` is
`bcrypt.hash(p, 10)` for the salt drawn by the call, `bcryptCompare` is
`bcrypt.compare`, `jwtSign` is `jwt.sign`, and `jwtVerify` is `jwt.verify`
with `none` standing for a thrown error. -/
structure Env where
  bcryptHash : String → Nat → String
  bcryptCompare : String → String → Bool
  jwtSign : Claims → String → String
  jwtVerify : String → String → Option Claims

/-- The value of the identifier `JWT_SECRET`.  `index.js` uses it at lines 45
and 70 and declares it nowhere, and the file requires only npm packages, so
nothing binds it: evaluating it throws a `ReferenceError`, which is `none`. -/
def JWT_SECRET : Option String := none

/-! ## Data model -/

/-- An element of `users`: `{ email, passwordHash, id }`. -/
structure User where
  email : String
  passwordHash : String
  id : String
deriving DecidableEq, Repr

/-- An element of `books`: `{ id, title }`, with `coverUrl` once a cover was
uploaded.  `title` is `none` when the request body carried no title. -/
structure Book where
  id : String
  title : Option String
  coverUrl : Option String
deriving DecidableEq, Repr

/-- A file part of a multipart request, with the `Date.now()` reading taken
when multer asks `filename` for its stored name. -/
structure UploadFile where
  originalname : String
  bytes : List Nat
  now : Nat
deriving DecidableEq, Repr

/-- A JavaScript object seen through its own enumerable string-keyed
properties, in insertion order. -/
abbrev Props (α : Type) := List (String × α)

/-- Own-property read: the value stored under `k`, if any. -/
def own {α : Type} (k : String) : Props α → Option α
  | [] => none
  | (k', v) :: rest => if k' = k then some v else own k rest

/-- Own-property write `o[k] = v` for a key with no inherited setter:
overwrite in place when `k` is already an own property, append otherwise. -/
def assign {α : Type} (k : String) (v : α) : Props α → Props α
  | [] => [(k, v)]
  | (k', v') :: rest => if k' = k then (k', v) :: rest else (k', v') :: assign k v rest

/-- One level of the progress structure: audio name to `currentTime`. -/
abbrev AudioMap := Props Int

/-- Book id to audio map. -/
abbrev BookMap := Props AudioMap

/-- The directory tree below `UPLOADS_DIR`: directory name to its files
(file name to content).  `path.join(UPLOADS_DIR, bookId)` is identified with
`bookId`, so ids are taken to be single path segments. -/
abbrev Uploads := Props (Props (List Nat))

/-- The mutable state of the process. -/
structure State where
  users : List User
  books : List Book
  /-- own properties of `progressData` -/
  progressData : Props BookMap
  /-- enumerable number-valued properties that requests have added to
  `Object.prototype` -/
  objectPrototype : AudioMap
  uploads : Uploads
deriving DecidableEq, Repr

/-- State at start-up: all collections empty, `uploads/` empty. -/
def State.init : State :=
  { users := [], books := [], progressData := [], objectPrototype := [], uploads := [] }

/-- What a route sends back. -/
inductive Response where
  /-- `res.json({ ok: true })` -/
  | okTrue
  /-- `res.status(status).json({ error })` -/
  | error (status : Nat) (message : String)
  /-- `res.json({ token })` -/
  | token (t : String)
  /-- `res.json(book)` -/
  | book (b : Book)
  /-- `res.json(books)` -/
  | books (bs : List Book)
  /-- a sequence of `{ name, url }` -/
  | files (fs : List (String × String))
  /-- `res.json(o)` for an object `o` with exactly these enumerable own properties -/
  | mapping (m : AudioMap)
  /-- `res.json(n)` for a number -/
  | number (n : Int)
  /-- the request reached a built-in object that the state does not track -/
  | untracked
  /-- the handler threw this error before it sent a response -/
  | thrown (error : String)
deriving DecidableEq, Repr

/-! ## Credential store -/

/-- `users.find(u => u.email === email)`. -/
def findUser (email : String) : List User → Option User
  | [] => none
  | u :: rest => if u.email = email then some u else findUser email rest

/-- `POST /api/auth/register`. -/
def register (K : Env) (s : State) (email password : String) (salt now : Nat) :
    State × Response :=
  match findUser email s.users with
  | some _ => (s, .error 400 "Email já cadastrado")
  | none =>
    let passwordHash := K.bcryptHash password salt
    let id := toString now
    ({ s with users := s.users ++ [{ email := email, passwordHash := passwordHash, id := id }] },
      .okTrue)

/-- `POST /api/auth/login`.  After a successful `bcrypt.compare` the argument
`JWT_SECRET` of `jwt.sign` is evaluated; when that throws, the handler ends
without a response. -/
def login (K : Env) (s : State) (email password : String) : State × Response :=
  match findUser email s.users with
  | none => (s, .error 400 "Usuário não encontrado")
  | some user =>
    if K.bcryptCompare password user.passwordHash then
      match JWT_SECRET with
      | some secret => (s, .token (K.jwtSign { id := user.id, email := user.email } secret))
      | none => (s, .thrown "ReferenceError: JWT_SECRET is not defined")
    else (s, .error 400 "Senha inválida")

/-! ## Auth gate -/

/-- `authHeader.split(' ')` on the characters of the header. -/
def splitSpaces : List Char → List (List Char)
  | [] => [[]]
  | c :: cs =>
    match splitSpaces cs with
    | [] => [[]]
    | w :: ws => if c = ' ' then [] :: w :: ws else (c :: w) :: ws

/-- `authHeader.split(' ')[1]`, `none` for `undefined`. -/
def bearerPart (authHeader : String) : Option String :=
  ((splitSpaces authHeader.data)[1]?).map String.mk

/-- How the middleware `auth` ends: it calls `next()` with `req.user` set to
the payload, or it sends a response itself. -/
inductive AuthResult where
  | next (payload : Claims)
  | reject (r : Response)
deriving DecidableEq, Repr

/-- The middleware `auth`.  Inside the `try`, the arguments of `jwt.verify`
are evaluated before the call; a `ReferenceError` from `JWT_SECRET` and an
error thrown by `jwt.verify` (also for an `undefined` token) both end in the
`catch`. -/
def auth (K : Env) (authorization : Option String) : AuthResult :=
  match authorization with
  | none => .reject (.error 401 "Token ausente")
  | some authHeader =>
    if authHeader = "" then .reject (.error 401 "Token ausente")
    else
      match JWT_SECRET with
      | none => .reject (.error 401 "Token inválido")
      | some secret =>
        match bearerPart authHeader with
        | none => .reject (.error 401 "Token inválido")
        | some token =>
          match K.jwtVerify token secret with
          | some payload => .next payload
          | none => .reject (.error 401 "Token inválido")

/-! ## Catalog -/

/-- `books.find(b => b.id === id)`. -/
def findBook (id : String) : List Book → Option Book
  | [] => none
  | b :: rest => if b.id = id then some b else findBook id rest

/-- Mutation of the object returned by `books.find`: the first book whose
id is `id` is replaced by `f` of it. -/
def updateFirst (id : String) (f : Book → Book) : List Book → List Book
  | [] => []
  | b :: rest => if b.id = id then f b :: rest else b :: updateFirst id f rest

/-- `POST /api/books`. -/
def createBook (s : State) (title : Option String) (now : Nat) : State × Response :=
  let id := toString now
  ({ s with books := s.books ++ [{ id := id, title := title, coverUrl := none }] },
    .book { id := id, title := title, coverUrl := none })

/-- `GET /api/books`. -/
def listBooks (s : State) : State × Response := (s, .books s.books)

/-! ## Asset store -/

/-- `req.body.bookId || req.params.id`: the body field wins unless it is
absent or the empty string.  `bodyBookId` is the field as multer has parsed
it when it asks for the destination, that is, a `bookId` part that precedes
the file in the multipart body. -/
def destinationId (bodyBookId : Option String) (paramsId : String) : String :=
  match bodyBookId with
  | none => paramsId
  | some b => if b = "" then paramsId else b

/-- `if (!fs.existsSync(bookDir)) fs.mkdirSync(bookDir)`. -/
def ensureDir (dir : String) (u : Uploads) : Uploads :=
  match own dir u with
  | some _ => u
  | none => u ++ [(dir, [])]

/-- The `filename` callback: `Date.now() + '-' + file.originalname`. -/
def filename (file : UploadFile) : String :=
  toString file.now ++ "-" ++ file.originalname

/-- Writing `bytes` to `dir/name`; an existing file of that name is replaced. -/
def writeFile (dir name : String) (bytes : List Nat) (u : Uploads) : Uploads :=
  match own dir u with
  | some fs => assign dir (assign name bytes fs) u
  | none => u

/-- What multer's disk storage does for one file: `destination`, then
`filename`, then the write. -/
def storeFile (bodyBookId : Option String) (paramsId : String) (u : Uploads)
    (file : UploadFile) : Uploads :=
  let bookDir := destinationId bodyBookId paramsId
  writeFile bookDir (filename file) file.bytes (ensureDir bookDir u)

/-- `upload.array('files')`: the files of the request are stored in order. -/
def storeFiles (bodyBookId : Option String) (paramsId : String) (u : Uploads) :
    List UploadFile → Uploads
  | [] => u
  | f :: fs => storeFiles bodyBookId paramsId (storeFile bodyBookId paramsId u f) fs

/-- The url template of the upload and audios routes. -/
def uploadUrl (id name : String) : String := "/uploads/" ++ id ++ "/" ++ name

/-- `POST /api/books/:id/upload` for a multipart request: `upload.array('files')`
stores the files, then the handler maps `req.files` to names and urls. -/
def upload (s : State) (id : String) (bodyBookId : Option String) (files : List UploadFile) :
    State × Response :=
  ({ s with uploads := storeFiles bodyBookId id s.uploads files },
    .files (files.map fun f => (f.originalname, uploadUrl id (filename f))))

/-- `GET /api/books/:id/audios`. -/
def listAudios (s : State) (id : String) : State × Response :=
  match own id s.uploads with
  | none => (s, .files [])
  | some fs => (s, .files (fs.map fun e => (e.1, uploadUrl id e.1)))

/-- `req.body.title` in a condition: absent and empty are both falsy. -/
def truthyTitle : Option String → Bool
  | none => false
  | some t => t ≠ ""

/-- `PUT /api/books/:id`: `upload.single('cover')` stores the cover file
before the handler looks the book up. -/
def updateBook (s : State) (id : String) (bodyBookId title : Option String)
    (cover : Option UploadFile) : State × Response :=
  let uploads := match cover with
    | some file => storeFile bodyBookId id s.uploads file
    | none => s.uploads
  match findBook id s.books with
  | none => ({ s with uploads := uploads }, .error 404 "Livro não encontrado")
  | some book =>
    let book1 := if truthyTitle title then { book with title := title } else book
    let book2 := match cover with
      | some file => { book1 with coverUrl := some (uploadUrl book.id (filename file)) }
      | none => book1
    ({ s with uploads := uploads, books := updateFirst id (fun _ => book2) s.books },
      .book book2)

/-! ## Progress tracker

`progressData` and the objects stored in it are plain objects (`{}`), so a
property read that finds no own property continues on `Object.prototype`.
The state tracks the own properties of `progressData` and of the objects the
handlers create, and the enumerable number-valued properties the handlers
add to `Object.prototype`.  A request whose evaluation would use anything
else as the receiver of a property access (a built-in method, or a number
found on `Object.prototype`) ends in `Response.untracked`.

A property added to `Object.prototype` is inherited by every object of the
process, those of Express, Node and the libraries included.  The other
routes and `Env` describe a process in which no request field or option
they read is such a property. -/

/-- Names of the methods that `Object.prototype` carries from the start. -/
def objectPrototypeMethods : List String :=
  ["constructor", "__defineGetter__", "__defineSetter__", "hasOwnProperty",
   "__lookupGetter__", "__lookupSetter__", "isPrototypeOf", "propertyIsEnumerable",
   "toString", "valueOf", "toLocaleString"]

/-- The result of the property read `o[k]` on a plain object `o`. -/
inductive Slot (α : Type) where
  /-- an own property of `o` -/
  | ownValue (v : α)
  /-- `k` is `__proto__`: the read yields `Object.prototype` itself -/
  | objectPrototype
  /-- a number that a request stored on `Object.prototype` -/
  | inherited (n : Int)
  /-- a built-in method of `Object.prototype` -/
  | method
  /-- `undefined` -/
  | undefined
deriving DecidableEq, Repr

/-- The property read `o[k]` for a plain object with own properties `o`, when
`Object.prototype` carries the added properties `proto`. -/
def readProp {α : Type} (proto : AudioMap) (o : Props α) (k : String) : Slot α :=
  match own k o with
  | some v => .ownValue v
  | none =>
    if k = "__proto__" then .objectPrototype
    else
      match own k proto with
      | some n => .inherited n
      | none => if k ∈ objectPrototypeMethods then .method else .undefined

/-- The test `!o[k]`: `undefined` and the number `0` are falsy, objects and
functions are truthy. -/
def Slot.falsy {α : Type} : Slot α → Bool
  | .undefined => true
  | .inherited n => n = 0
  | _ => false

/-- The statement `if (!o[k]) o[k] = {}` on a plain object `o`.  The assignment
runs only for a falsy read, and then `k` is not `__proto__`, so it creates an
own property. -/
def ensureObject {α : Type} (proto : AudioMap) (k : String) (o : Props (Props α)) :
    Props (Props α) :=
  if (readProp proto o k).falsy then assign k [] o else o

/-- The statement `target[audioName] = currentTime` for a plain object
`target`: `__proto__` is the inherited accessor, whose setter ignores a
number; every other key becomes (or stays) an own property. -/
def assignTime (audioName : String) (currentTime : Int) (target : AudioMap) : AudioMap :=
  if audioName = "__proto__" then target else assign audioName currentTime target

/-- The three statements of the body of `POST /api/books/:id/progress`, on
the two objects they can change: the own properties of `progressData` and
the properties added to `Object.prototype`. -/
def storeProgress (proto : AudioMap) (progressData : Props BookMap)
    (userId bookId audioName : String) (currentTime : Int) :
    Props BookMap × AudioMap × Response :=
  -- if (!progressData[userId]) progressData[userId] = {};
  let pd1 := ensureObject proto userId progressData
  match readProp proto pd1 userId with
  | .ownValue perUser =>
    -- if (!progressData[userId][bookId]) progressData[userId][bookId] = {};
    let perUser1 := ensureObject proto bookId perUser
    -- progressData[userId][bookId][audioName] = currentTime;
    match readProp proto perUser1 bookId with
    | .ownValue perBook =>
      (assign userId (assign bookId (assignTime audioName currentTime perBook) perUser1) pd1,
        proto, .okTrue)
    | .objectPrototype =>
      if audioName ∈ objectPrototypeMethods then (assign userId perUser1 pd1, proto, .untracked)
      else (assign userId perUser1 pd1, assignTime audioName currentTime proto, .okTrue)
    | _ => (assign userId perUser1 pd1, proto, .untracked)
  | _ => (pd1, proto, .untracked)

/-- The body of `POST /api/books/:id/progress` (lines 108-114), as it runs once
`auth` has called `next()` with `req.user.id = userId`. -/
def saveProgress (s : State) (userId bookId audioName : String) (currentTime : Int) :
    State × Response :=
  let r := storeProgress s.objectPrototype s.progressData userId bookId audioName currentTime
  ({ s with progressData := r.1, objectPrototype := r.2.1 }, r.2.2)

/-- The body of `GET /api/books/:id/progress` (lines 119-121), as it runs once
`auth` has called `next()` with `req.user.id = userId`:
`res.json(progressData[userId]?.[bookId] || {})`. -/
def getProgress (s : State) (userId bookId : String) : State × Response :=
  match readProp s.objectPrototype s.progressData userId with
  | .undefined => (s, .mapping [])
  | .ownValue perUser =>
    match readProp s.objectPrototype perUser bookId with
    | .ownValue perBook => (s, .mapping perBook)
    | .objectPrototype => (s, .mapping s.objectPrototype)
    | .inherited n => if n = 0 then (s, .mapping []) else (s, .number n)
    | .method => (s, .untracked)
    | .undefined => (s, .mapping [])
  | _ => (s, .untracked)

/-- `POST /api/books/:id/progress` behind `auth`. -/
def saveProgressRoute (K : Env) (s : State) (id : String) (authorization : Option String)
    (audioName : String) (currentTime : Int) : State × Response :=
  match auth K authorization with
  | .reject r => (s, r)
  | .next payload => saveProgress s payload.id id audioName currentTime

/-- `GET /api/books/:id/progress` behind `auth`. -/
def getProgressRoute (K : Env) (s : State) (id : String) (authorization : Option String) :
    State × Response :=
  match auth K authorization with
  | .reject r => (s, r)
  | .next payload => getProgress s payload.id id

/-! ## The application as a transition system -/

/-- One HTTP request, with the clock readings and salts it consumes. -/
inductive Request where
  | register (email password : String) (salt now : Nat)
  | login (email password : String)
  | createBook (title : Option String) (now : Nat)
  | listBooks
  | upload (id : String) (bodyBookId : Option String) (files : List UploadFile)
  | listAudios (id : String)
  | saveProgress (id : String) (authorization : Option String) (audioName : String)
      (currentTime : Int)
  | getProgress (id : String) (authorization : Option String)
  | updateBook (id : String) (bodyBookId title : Option String) (cover : Option UploadFile)
deriving DecidableEq, Repr

/-- Dispatch of a request to its route. -/
def step (K : Env) (s : State) : Request → State × Response
  | .register email password salt now => register K s email password salt now
  | .login email password => login K s email password
  | .createBook title now => createBook s title now
  | .listBooks => listBooks s
  | .upload id bodyBookId files => upload s id bodyBookId files
  | .listAudios id => listAudios s id
  | .saveProgress id authorization audioName currentTime =>
    saveProgressRoute K s id authorization audioName currentTime
  | .getProgress id authorization => getProgressRoute K s id authorization
  | .updateBook id bodyBookId title cover => updateBook s id bodyBookId title cover

/-- The state after serving the requests in order. -/
def run (K : Env) (s : State) : List Request → State
  | [] => s
  | r :: rs => run K (step K s r).1 rs

/-- A key for which a property read on a plain object sees own properties
only: it is not `__proto__`, not the name of a method of `Object.prototype`,
and not a property that a request added to `Object.prototype`. -/
def plainKey (proto : AudioMap) (k : String) : Prop :=
  k ≠ "__proto__" ∧ own k proto = none ∧ k ∉ objectPrototypeMethods

/-- The `Date.now()` readings from which the `POST /api/books` requests of a
sequence derive their ids, in order. -/
def createTimes : List Request → List Nat
  | [] => []
  | .createBook _ now :: rs => now :: createTimes rs
  | _ :: rs => createTimes rs

/-! ## A concrete instance of the collaborators -/

/-- Stand-ins for the two libraries, used to run the routes on concrete
requests: a hash is the salt, a dollar sign and the password; a token is the
id, the email and the signing key separated by bars. -/
def demoEnv : Env where
  bcryptHash p salt := toString salt ++ "$" ++ p
  bcryptCompare p h :=
    match h.data.splitOn '$' with
    | [_, q] => q = p.data
    | _ => false
  jwtSign c k := c.id ++ "|" ++ c.email ++ "|" ++ k
  jwtVerify tok k :=
    match tok.data.splitOn '|' with
    | [i, e, sig] => if sig = k.data then some { id := String.mk i, email := String.mk e } else none
    | _ => none

/-! ## Supporting lemmas -/

theorem findUser_eq_none_iff (email : String) (us : List User) :
    findUser email us = none ↔ ∀ u ∈ us, u.email ≠ email := by
  induction us with
  | nil => simp [findUser]
  | cons u rest ih =>
    by_cases h : u.email = email
    · simp [findUser, h]
    · simp [findUser, h, ih]

theorem findUser_append_of_some {email : String} {us : List User} {u : User}
    (h : findUser email us = some u) (extra : List User) :
    findUser email (us ++ extra) = some u := by
  induction us with
  | nil => simp [findUser] at h
  | cons v rest ih =>
    by_cases hv : v.email = email
    · simpa [findUser, hv] using h
    · simp only [findUser, hv, if_false, List.cons_append] at h ⊢
      exact ih h

theorem findUser_append_new {email : String} {us : List User}
    (h : findUser email us = none) (u : User) (hu : u.email = email) :
    findUser email (us ++ [u]) = some u := by
  induction us with
  | nil => simp [findUser, hu]
  | cons v rest ih =>
    by_cases hv : v.email = email
    · simp [findUser, hv] at h
    · simp only [findUser, hv, if_false, List.cons_append] at h ⊢
      exact ih h

theorem saveProgress_users (s : State) (userId bookId audioName : String) (t : Int) :
    (saveProgress s userId bookId audioName t).1.users = s.users := by
  rfl

theorem saveProgress_books (s : State) (userId bookId audioName : String) (t : Int) :
    (saveProgress s userId bookId audioName t).1.books = s.books := by
  rfl

theorem getProgress_state (s : State) (userId bookId : String) :
    (getProgress s userId bookId).1 = s := by
  unfold getProgress
  repeat' split
  all_goals rfl

/-- Every route leaves `users` alone or appends to it. -/
theorem step_users (K : Env) (s : State) (r : Request) :
    ∃ extra, (step K s r).1.users = s.users ++ extra := by
  cases r with
  | register email password salt now =>
    simp only [step, register]
    split
    · exact ⟨[], by simp⟩
    · exact ⟨_, rfl⟩
  | login email password =>
    refine ⟨[], ?_⟩
    simp only [step, login]
    repeat' split
    all_goals simp
  | createBook title now => exact ⟨[], by simp [step, createBook]⟩
  | listBooks => exact ⟨[], by simp [step, listBooks]⟩
  | upload id b files => exact ⟨[], by simp [step, upload]⟩
  | listAudios id =>
    refine ⟨[], ?_⟩
    simp only [step, listAudios]
    split <;> simp
  | saveProgress id a n t =>
    refine ⟨[], ?_⟩
    simp only [step, saveProgressRoute]
    split
    · simp
    · simp [saveProgress_users]
  | getProgress id a =>
    refine ⟨[], ?_⟩
    simp only [step, getProgressRoute]
    split
    · simp
    · simp [getProgress_state]
  | updateBook id b title cover =>
    refine ⟨[], ?_⟩
    simp only [step, updateBook]
    split <;> simp

theorem run_users (K : Env) (reqs : List Request) (s : State) :
    ∃ extra, (run K s reqs).users = s.users ++ extra := by
  induction reqs generalizing s with
  | nil => exact ⟨[], by simp [run]⟩
  | cons r rs ih =>
    obtain ⟨e1, h1⟩ := step_users K s r
    obtain ⟨e2, h2⟩ := ih (step K s r).1
    exact ⟨e1 ++ e2, by simp [run, h2, h1]⟩

/-- Emails stay pairwise distinct across any route. -/
theorem step_emails_nodup (K : Env) (s : State) (r : Request)
    (h : (s.users.map User.email).Nodup) :
    ((step K s r).1.users.map User.email).Nodup := by
  cases r with
  | register email password salt now =>
    simp only [step, register]
    split
    · exact h
    · rename_i hnone
      rw [findUser_eq_none_iff] at hnone
      simp only [List.map_append, List.map_cons, List.map_nil]
      rw [List.nodup_append]
      refine ⟨h, by simp, ?_⟩
      intro a ha hb
      simp only [List.mem_singleton] at hb
      simp only [List.mem_map] at ha
      obtain ⟨u, hu, rfl⟩ := ha
      exact hnone u hu hb
  | login email password =>
    have : (step K s (.login email password)).1.users = s.users := by
      simp only [step, login]
      repeat' split
      all_goals rfl
    rw [this]; exact h
  | createBook title now => simpa [step, createBook] using h
  | listBooks => simpa [step, listBooks] using h
  | upload id b files => simpa [step, upload] using h
  | listAudios id =>
    have : (step K s (.listAudios id)).1.users = s.users := by
      simp only [step, listAudios]
      split <;> rfl
    rw [this]; exact h
  | saveProgress id a n t =>
    have : (step K s (.saveProgress id a n t)).1.users = s.users := by
      simp only [step, saveProgressRoute]
      split
      · rfl
      · exact saveProgress_users _ _ _ _ _
    rw [this]; exact h
  | getProgress id a =>
    have : (step K s (.getProgress id a)).1.users = s.users := by
      simp only [step, getProgressRoute]
      split
      · rfl
      · rw [getProgress_state]
    rw [this]; exact h
  | updateBook id b title cover =>
    have : (step K s (.updateBook id b title cover)).1.users = s.users := by
      simp only [step, updateBook]
      split <;> rfl
    rw [this]; exact h

theorem run_emails_nodup (K : Env) (reqs : List Request) (s : State)
    (h : (s.users.map User.email).Nodup) :
    ((run K s reqs).users.map User.email).Nodup := by
  induction reqs generalizing s with
  | nil => simpa [run] using h
  | cons r rs ih => exact ih _ (step_emails_nodup K s r h)


/-! ### Decimal rendering of clock readings -/

theorem toDigitsCore_append (fuel : Nat) : ∀ (n : Nat) (ds : List Char),
    Nat.toDigitsCore 10 fuel n ds = Nat.toDigitsCore 10 fuel n [] ++ ds := by
  induction fuel with
  | zero => intro n ds; simp [Nat.toDigitsCore]
  | succ f ih =>
    intro n ds
    simp only [Nat.toDigitsCore]
    split
    · simp
    · rw [ih (n / 10) (Nat.digitChar (n % 10) :: ds), ih (n / 10) [Nat.digitChar (n % 10)]]
      simp

theorem toDigitsCore_fuel (fuel : Nat) : ∀ (fuel' n : Nat), n < fuel → n < fuel' →
    Nat.toDigitsCore 10 fuel n [] = Nat.toDigitsCore 10 fuel' n [] := by
  induction fuel with
  | zero => intro fuel' n h; omega
  | succ f ih =>
    intro fuel' n h h'
    obtain ⟨f', rfl⟩ : ∃ f', fuel' = f' + 1 := ⟨fuel' - 1, by omega⟩
    simp only [Nat.toDigitsCore]
    split
    · rfl
    · rename_i hne
      rw [toDigitsCore_append f, toDigitsCore_append f']
      have hlt : n / 10 < n := Nat.div_lt_self (by omega) (by omega)
      rw [ih f' (n / 10) (by omega) (by omega)]

theorem toDigits_small (n : Nat) (h : n < 10) : Nat.toDigits 10 n = [Nat.digitChar n] := by
  have h0 : n / 10 = 0 := Nat.div_eq_of_lt h
  simp [Nat.toDigits, Nat.toDigitsCore, h0, Nat.mod_eq_of_lt h]

theorem toDigits_step (n : Nat) (h : 10 ≤ n) :
    Nat.toDigits 10 n = Nat.toDigits 10 (n / 10) ++ [Nat.digitChar (n % 10)] := by
  have h0 : n / 10 ≠ 0 := by omega
  have hlt : n / 10 < n := Nat.div_lt_self (by omega) (by omega)
  have key : Nat.toDigitsCore 10 (n + 1) n []
      = Nat.toDigitsCore 10 n (n / 10) [Nat.digitChar (n % 10)] := by
    show (if n / 10 = 0 then _ else _) = _
    rw [if_neg h0]
  unfold Nat.toDigits
  rw [key, toDigitsCore_append n, toDigitsCore_fuel n (n / 10 + 1) (n / 10) hlt (by omega)]

theorem toDigits_ne_nil (n : Nat) : Nat.toDigits 10 n ≠ [] := by
  by_cases h : n < 10
  · simp [toDigits_small n h]
  · simp [toDigits_step n (by omega)]

theorem digitChar_ne_dash (d : Nat) (h : d < 10) : Nat.digitChar d ≠ '-' := by
  interval_cases d <;> decide

theorem digitChar_inj (a b : Nat) (ha : a < 10) (hb : b < 10)
    (h : Nat.digitChar a = Nat.digitChar b) : a = b := by
  interval_cases a <;> interval_cases b <;> first | rfl | (exact absurd h (by decide))

theorem dash_not_mem_toDigits (n : Nat) : '-' ∉ Nat.toDigits 10 n := by
  induction n using Nat.strong_induction_on with
  | _ n ih =>
    by_cases h : n < 10
    · rw [toDigits_small n h]
      simp only [List.mem_singleton]
      exact fun e => digitChar_ne_dash n h e.symm
    · rw [toDigits_step n (by omega)]
      simp only [List.mem_append, List.mem_singleton, not_or]
      exact ⟨ih (n / 10) (Nat.div_lt_self (by omega) (by omega)),
        fun e => digitChar_ne_dash (n % 10) (Nat.mod_lt _ (by omega)) e.symm⟩

theorem toDigits_injective (a : Nat) : ∀ b : Nat, Nat.toDigits 10 a = Nat.toDigits 10 b → a = b := by
  induction a using Nat.strong_induction_on with
  | _ a ih =>
    intro b hab
    by_cases ha : a < 10
    · by_cases hb : b < 10
      · rw [toDigits_small a ha, toDigits_small b hb] at hab
        exact digitChar_inj a b ha hb (by simpa using hab)
      · rw [toDigits_small a ha, toDigits_step b (by omega)] at hab
        have := congrArg List.length hab
        have hpos : 0 < (Nat.toDigits 10 (b / 10)).length :=
          List.length_pos.2 (toDigits_ne_nil _)
        simp only [List.length_append, List.length_singleton] at this
        omega
    · by_cases hb : b < 10
      · rw [toDigits_step a (by omega), toDigits_small b hb] at hab
        have := congrArg List.length hab
        have hpos : 0 < (Nat.toDigits 10 (a / 10)).length :=
          List.length_pos.2 (toDigits_ne_nil _)
        simp only [List.length_append, List.length_singleton] at this
        omega
      · rw [toDigits_step a (by omega), toDigits_step b (by omega)] at hab
        have hlen : ([Nat.digitChar (a % 10)]).length = ([Nat.digitChar (b % 10)]).length := rfl
        obtain ⟨h1, h2⟩ := List.append_inj' hab hlen
        have hq := ih (a / 10) (Nat.div_lt_self (by omega) (by omega)) (b / 10) h1
        have hr := digitChar_inj (a % 10) (b % 10) (Nat.mod_lt _ (by omega))
          (Nat.mod_lt _ (by omega)) (by simpa using h2)
        omega

theorem split_at_first {α : Type} {x : α} : ∀ (l1 l2 r1 r2 : List α), x ∉ l1 → x ∉ l2 →
    l1 ++ x :: r1 = l2 ++ x :: r2 → l1 = l2 ∧ r1 = r2 := by
  intro l1
  induction l1 with
  | nil =>
    intro l2 r1 r2 _ h2 h
    cases l2 with
    | nil => simpa using h
    | cons b l2 =>
      simp only [List.nil_append, List.cons_append, List.cons.injEq] at h
      exact absurd (h.1 ▸ List.mem_cons_self _ _) h2
  | cons a l1 ih =>
    intro l2 r1 r2 h1 h2 h
    cases l2 with
    | nil =>
      simp only [List.nil_append, List.cons_append, List.cons.injEq] at h
      exact absurd (h.1 ▸ List.mem_cons_self _ _) h1
    | cons b l2 =>
      simp only [List.cons_append, List.cons.injEq] at h
      obtain ⟨e1, e2⟩ := ih l2 r1 r2 (fun m => h1 (List.mem_cons_of_mem _ m))
        (fun m => h2 (List.mem_cons_of_mem _ m)) h.2
      exact ⟨by rw [h.1, e1], e2⟩

theorem toString_nat_injective {a b : Nat} (h : toString a = toString b) : a = b := by
  apply toDigits_injective a b
  have := congrArg String.data h
  simpa [toString, Nat.repr] using this

theorem timestamped_injective {a b : Nat} {x y : String}
    (h : toString a ++ "-" ++ x = toString b ++ "-" ++ y) : a = b ∧ x = y := by
  have hd := congrArg String.data h
  simp only [String.data_append, toString, Nat.repr, List.asString, List.append_assoc] at hd
  have hd' : Nat.toDigits 10 a ++ '-' :: x.data = Nat.toDigits 10 b ++ '-' :: y.data := hd
  obtain ⟨h1, h2⟩ := split_at_first _ _ _ _ (dash_not_mem_toDigits a) (dash_not_mem_toDigits b) hd'
  exact ⟨toDigits_injective a b h1, String.ext h2⟩

/-! ### Catalog lemmas -/

theorem findBook_eq_none_iff (id : String) (bs : List Book) :
    findBook id bs = none ↔ ∀ b ∈ bs, b.id ≠ id := by
  induction bs with
  | nil => simp [findBook]
  | cons b rest ih =>
    by_cases h : b.id = id
    · simp [findBook, h]
    · simp [findBook, h, ih]

theorem findBook_id {id : String} {bs : List Book} {book : Book}
    (h : findBook id bs = some book) : book.id = id := by
  induction bs with
  | nil => simp [findBook] at h
  | cons b rest ih =>
    by_cases hb : b.id = id
    · simp only [findBook, hb, if_true, Option.some.injEq] at h
      exact h ▸ hb
    · simp only [findBook, hb, if_false] at h
      exact ih h

theorem updateFirst_ids (id : String) (b2 : Book) (h2 : b2.id = id) (bs : List Book) :
    (updateFirst id (fun _ => b2) bs).map Book.id = bs.map Book.id := by
  induction bs with
  | nil => rfl
  | cons b rest ih =>
    by_cases hb : b.id = id
    · simp [updateFirst, hb, h2]
    · simp [updateFirst, hb, ih]

theorem findBook_updateFirst (id : String) (b2 : Book) (h2 : b2.id = id) (bs : List Book)
    (book : Book) (h : findBook id bs = some book) :
    findBook id (updateFirst id (fun _ => b2) bs) = some b2 := by
  induction bs with
  | nil => simp [findBook] at h
  | cons b rest ih =>
    by_cases hb : b.id = id
    · simp [updateFirst, findBook, hb, h2]
    · simp only [findBook, hb, if_false] at h
      simp [updateFirst, findBook, hb, ih h]

theorem mem_updateFirst (id : String) (b2 : Book) (bs : List Book)
    (book : Book) (h : findBook id bs = some book) :
    b2 ∈ updateFirst id (fun _ => b2) bs := by
  induction bs with
  | nil => simp [findBook] at h
  | cons b rest ih =>
    by_cases hb : b.id = id
    · simp [updateFirst, hb]
    · simp only [findBook, hb, if_false] at h
      simp [updateFirst, hb, ih h]

/-- The ids of the books after `PUT /api/books/:id` are, position by
position, the ids before it. -/
theorem updateBook_ids (s : State) (id : String) (bodyBookId title : Option String)
    (cover : Option UploadFile) :
    (updateBook s id bodyBookId title cover).1.books.map Book.id = s.books.map Book.id := by
  unfold updateBook
  cases hf : findBook id s.books with
  | none => rfl
  | some book =>
    have hid := findBook_id hf
    simp only
    apply updateFirst_ids
    cases cover <;> by_cases ht : truthyTitle title = true <;> simp [ht, hid]

theorem step_book_ids (K : Env) (s : State) (r : Request) :
    (step K s r).1.books.map Book.id
      = s.books.map Book.id ++ (createTimes [r]).map toString := by
  cases r with
  | register email password salt now =>
    simp only [step, register, createTimes]
    split <;> simp
  | login email password =>
    simp only [step, login, createTimes]
    repeat' split
    all_goals simp
  | createBook title now => simp [step, createBook, createTimes]
  | listBooks => simp [step, listBooks, createTimes]
  | upload id b files => simp [step, upload, createTimes]
  | listAudios id =>
    simp only [step, listAudios, createTimes]
    split <;> simp
  | saveProgress id a n t =>
    simp only [step, saveProgressRoute, createTimes]
    split
    · simp
    · simp [saveProgress_books]
  | getProgress id a =>
    simp only [step, getProgressRoute, createTimes]
    split
    · simp
    · simp [getProgress_state]
  | updateBook id b title cover =>
    simp [step, createTimes, updateBook_ids]

theorem createTimes_cons (r : Request) (rs : List Request) :
    createTimes (r :: rs) = createTimes [r] ++ createTimes rs := by
  cases r <;> simp [createTimes]

theorem run_book_ids (K : Env) (reqs : List Request) (s : State) :
    (run K s reqs).books.map Book.id
      = s.books.map Book.id ++ (createTimes reqs).map toString := by
  induction reqs generalizing s with
  | nil => simp [run, createTimes]
  | cons r rs ih =>
    rw [run, ih, step_book_ids, createTimes_cons r rs]
    simp

/-! ### Object and asset-store lemmas -/

theorem own_eq_none_iff {α : Type} (k : String) (o : Props α) :
    own k o = none ↔ k ∉ o.map Prod.fst := by
  induction o with
  | nil => simp [own]
  | cons e rest ih =>
    obtain ⟨k', v⟩ := e
    by_cases h : k' = k
    · simp [own, h]
    · have h' : ¬ k = k' := fun e => h e.symm
      simp [own, h, h', ih]

theorem own_assign_self {α : Type} (k : String) (v : α) (o : Props α) :
    own k (assign k v o) = some v := by
  induction o with
  | nil => simp [own, assign]
  | cons e rest ih =>
    obtain ⟨k', v'⟩ := e
    by_cases h : k' = k
    · simp [own, assign, h]
    · simp [own, assign, h, ih]

theorem own_assign_other {α : Type} (k j : String) (v : α) (o : Props α) (h : j ≠ k) :
    own j (assign k v o) = own j o := by
  induction o with
  | nil => simp [own, assign, h.symm]
  | cons e rest ih =>
    obtain ⟨k', v'⟩ := e
    by_cases hk : k' = k
    · subst hk
      simp [own, assign, h.symm]
    · by_cases hj : k' = j
      · subst hj
        simp [own, assign, h]
      · simp [own, assign, hk, hj, ih]

theorem own_append_new {α : Type} (k : String) (v : α) (o : Props α) (h : own k o = none) :
    own k (o ++ [(k, v)]) = some v := by
  induction o with
  | nil => simp [own]
  | cons e rest ih =>
    obtain ⟨k', v'⟩ := e
    by_cases hk : k' = k
    · simp [own, hk] at h
    · simp only [own, hk, if_false, List.cons_append] at h ⊢
      exact ih h

theorem keys_assign_of_mem {α : Type} (k : String) (v : α) (o : Props α)
    (h : k ∈ o.map Prod.fst) : (assign k v o).map Prod.fst = o.map Prod.fst := by
  induction o with
  | nil => simp at h
  | cons e rest ih =>
    obtain ⟨k', v'⟩ := e
    by_cases hk : k' = k
    · simp [assign, hk]
    · have : k ∈ rest.map Prod.fst := by
        simp only [List.map_cons, List.mem_cons] at h
        rcases h with h | h
        · exact absurd h.symm hk
        · exact h
      simp [assign, hk, ih this]

theorem keys_assign_of_not_mem {α : Type} (k : String) (v : α) (o : Props α)
    (h : k ∉ o.map Prod.fst) : (assign k v o).map Prod.fst = o.map Prod.fst ++ [k] := by
  induction o with
  | nil => simp [assign]
  | cons e rest ih =>
    obtain ⟨k', v'⟩ := e
    simp only [List.map_cons, List.mem_cons, not_or] at h
    have hk : ¬ k' = k := fun e => h.1 e.symm
    simp [assign, hk, ih h.2]

/-- The files of a directory after multer stored `files` in it. -/
theorem own_storeFile (bodyBookId : Option String) (paramsId : String) (u : Uploads)
    (f : UploadFile) :
    own (destinationId bodyBookId paramsId) (storeFile bodyBookId paramsId u f)
      = some (assign (filename f) f.bytes
          ((own (destinationId bodyBookId paramsId) u).getD [])) := by
  unfold storeFile
  cases h : own (destinationId bodyBookId paramsId) u with
  | none =>
    have h' := own_append_new (destinationId bodyBookId paramsId) [] u h
    simp only [ensureDir, h, writeFile, h', Option.getD_none]
    exact own_assign_self _ _ _
  | some fs =>
    simp only [ensureDir, h, writeFile, Option.getD_some]
    exact own_assign_self _ _ _

theorem own_storeFiles (bodyBookId : Option String) (paramsId : String) :
    ∀ (files : List UploadFile) (u : Uploads), files ≠ [] →
    own (destinationId bodyBookId paramsId) (storeFiles bodyBookId paramsId u files)
      = some (files.foldl (fun fs f => assign (filename f) f.bytes fs)
          ((own (destinationId bodyBookId paramsId) u).getD [])) := by
  intro files
  induction files with
  | nil => intro u h; exact absurd rfl h
  | cons f rest ih =>
    intro u _
    cases rest with
    | nil => simpa [storeFiles] using own_storeFile bodyBookId paramsId u f
    | cons g rest =>
      have := ih (storeFile bodyBookId paramsId u f) (by simp)
      rw [storeFiles, this, own_storeFile]
      simp

theorem keys_foldl_assign : ∀ (files : List UploadFile) (fs : Props (List Nat)),
    ((files.map filename).Nodup) → (∀ f ∈ files, filename f ∉ fs.map Prod.fst) →
    (files.foldl (fun fs f => assign (filename f) f.bytes fs) fs).map Prod.fst
      = fs.map Prod.fst ++ files.map filename := by
  intro files
  induction files with
  | nil => intro fs _ _; simp
  | cons f rest ih =>
    intro fs hnd hfresh
    simp only [List.map_cons, List.nodup_cons] at hnd
    have hf : filename f ∉ fs.map Prod.fst := hfresh f (List.mem_cons_self _ _)
    simp only [List.foldl_cons, List.map_cons]
    rw [ih (assign (filename f) f.bytes fs) hnd.2]
    · rw [keys_assign_of_not_mem _ _ _ hf]
      simp
    · intro g hg
      rw [keys_assign_of_not_mem _ _ _ hf]
      simp only [List.mem_append, List.mem_singleton, not_or]
      refine ⟨hfresh g (List.mem_cons_of_mem _ hg), fun e => hnd.1 ?_⟩
      rw [← e]
      exact List.mem_map_of_mem _ hg

theorem filenames_nodup (files : List UploadFile)
    (h : (files.map fun f => (f.now, f.originalname)).Nodup) :
    (files.map filename).Nodup := by
  have hinj : Function.Injective
      (fun p : Nat × String => toString p.1 ++ "-" ++ p.2) := by
    rintro ⟨a, x⟩ ⟨b, y⟩ hab
    obtain ⟨h1, h2⟩ := timestamped_injective hab
    exact Prod.ext h1 h2
  have := h.map hinj
  simpa [List.map_map, Function.comp_def, filename] using this

/-! ### Progress on plain keys -/

theorem readProp_plain {α : Type} (proto : AudioMap) (o : Props α) (k : String)
    (hk : plainKey proto k) :
    readProp proto o k = match own k o with
      | some v => .ownValue v
      | none => .undefined := by
  obtain ⟨h1, h2, h3⟩ := hk
  unfold readProp
  cases own k o with
  | some v => rfl
  | none => simp [h1, h2, h3]

theorem ensureObject_plain {α : Type} (proto : AudioMap) (o : Props (Props α)) (k : String)
    (hk : plainKey proto k) :
    own k (ensureObject proto k o) = some ((own k o).getD []) := by
  unfold ensureObject
  rw [readProp_plain proto o k hk]
  cases h : own k o with
  | some v => simp [Slot.falsy, h]
  | none => simp [Slot.falsy, own_assign_self]

/-- Outside the inherited names the progress routes behave as a three-level
map: a save answers `{ ok: true }` and the read that follows returns a
mapping whose entry for the audio name is the saved value. -/
theorem saveProgress_then_getProgress_plain (s : State) (userId bookId audioName : String)
    (t : Int) (hu : plainKey s.objectPrototype userId) (hb : plainKey s.objectPrototype bookId)
    (ha : audioName ≠ "__proto__") :
    (saveProgress s userId bookId audioName t).2 = .okTrue ∧
    (saveProgress s userId bookId audioName t).1.objectPrototype = s.objectPrototype ∧
    ∃ m, (getProgress (saveProgress s userId bookId audioName t).1 userId bookId).2
        = .mapping m ∧ own audioName m = some t := by
  have h1 := ensureObject_plain s.objectPrototype s.progressData userId hu
  have r1 := readProp_plain s.objectPrototype
    (ensureObject s.objectPrototype userId s.progressData) userId hu
  rw [h1] at r1
  have h2 := ensureObject_plain s.objectPrototype ((own userId s.progressData).getD []) bookId hb
  have r2 := readProp_plain s.objectPrototype
    (ensureObject s.objectPrototype bookId ((own userId s.progressData).getD [])) bookId hb
  rw [h2] at r2
  have hstore : storeProgress s.objectPrototype s.progressData userId bookId audioName t
      = (assign userId
          (assign bookId
            (assignTime audioName t ((own bookId ((own userId s.progressData).getD [])).getD []))
            (ensureObject s.objectPrototype bookId ((own userId s.progressData).getD [])))
          (ensureObject s.objectPrototype userId s.progressData),
        s.objectPrototype, .okTrue) := by
    simp only [storeProgress, r1, r2]
  simp only [saveProgress, hstore]
  refine ⟨trivial, trivial,
    assignTime audioName t ((own bookId ((own userId s.progressData).getD [])).getD []), ?_, ?_⟩
  · simp only [getProgress]
    rw [readProp_plain _ _ _ hu, own_assign_self]
    simp only
    rw [readProp_plain _ _ _ hb, own_assign_self]
  · simp [assignTime, ha, own_assign_self]

theorem readProp_congr {α : Type} (proto : AudioMap) (o o' : Props α) (k : String)
    (h : own k o = own k o') : readProp proto o k = readProp proto o' k := by
  unfold readProp
  rw [h]

theorem own_ensureObject_other {α : Type} (proto : AudioMap) (o : Props (Props α))
    (k j : String) (h : j ≠ k) : own j (ensureObject proto k o) = own j o := by
  unfold ensureObject
  split
  · exact own_assign_other k j [] o h
  · rfl

/-- Outside the inherited names a save under one user id does not change
what a read under another user id returns. -/
theorem saveProgress_other_user_plain (s : State) (userA userB bookA audioName bookB : String)
    (t : Int) (hne : userB ≠ userA) (hu : plainKey s.objectPrototype userA)
    (hb : plainKey s.objectPrototype bookA) :
    (getProgress (saveProgress s userA bookA audioName t).1 userB bookB).2
      = (getProgress s userB bookB).2 := by
  have r1 := readProp_plain s.objectPrototype
    (ensureObject s.objectPrototype userA s.progressData) userA hu
  rw [ensureObject_plain s.objectPrototype s.progressData userA hu] at r1
  have r2 := readProp_plain s.objectPrototype
    (ensureObject s.objectPrototype bookA ((own userA s.progressData).getD [])) bookA hb
  rw [ensureObject_plain s.objectPrototype ((own userA s.progressData).getD []) bookA hb] at r2
  have hstore : storeProgress s.objectPrototype s.progressData userA bookA audioName t
      = (assign userA
          (assign bookA
            (assignTime audioName t ((own bookA ((own userA s.progressData).getD [])).getD []))
            (ensureObject s.objectPrototype bookA ((own userA s.progressData).getD [])))
          (ensureObject s.objectPrototype userA s.progressData),
        s.objectPrototype, .okTrue) := by
    simp only [storeProgress, r1, r2]
  simp only [saveProgress, hstore, getProgress]
  rw [readProp_congr s.objectPrototype _ s.progressData userB
    ((own_assign_other userA userB _ _ hne).trans
      (own_ensureObject_other s.objectPrototype s.progressData userA userB hne))]
  repeat' split
  all_goals rfl

/-! ### The auth gate on every header -/

/-- The middleware `auth` never calls `next()`: it answers 401 to every
request. -/
theorem auth_rejects (K : Env) (authorization : Option String) :
    ∃ message, auth K authorization = .reject (.error 401 message) := by
  unfold auth
  cases authorization with
  | none => exact ⟨_, rfl⟩
  | some authHeader =>
    by_cases h : authHeader = ""
    · exact ⟨"Token ausente", by simp [h]⟩
    · exact ⟨"Token inválido", by simp [h, JWT_SECRET]⟩

theorem saveProgressRoute_state (K : Env) (s : State) (id : String)
    (authorization : Option String) (audioName : String) (currentTime : Int) :
    (saveProgressRoute K s id authorization audioName currentTime).1 = s := by
  obtain ⟨message, h⟩ := auth_rejects K authorization
  simp [saveProgressRoute, h]

theorem step_saveProgress_state (K : Env) (s : State) (id : String)
    (authorization : Option String) (audioName : String) (currentTime : Int) :
    (step K s (.saveProgress id authorization audioName currentTime)).1 = s :=
  saveProgressRoute_state K s id authorization audioName currentTime

theorem run_append (K : Env) (xs ys : List Request) (s : State) :
    run K s (xs ++ ys) = run K (run K s xs) ys := by
  induction xs generalizing s with
  | nil => rfl
  | cons r rs ih => simp [run, ih]

/-! ## Credential store: claims C3 and C4 -/

/-- C3: in every state reached from start-up by serving requests one after
the other, no two records of `users` have the same email; and a register
call whose email equals that of an existing user answers 400
"Email já cadastrado" (DuplicateEmail) and leaves the state, hence `users`,
unchanged. -/
theorem register_keeps_emails_unique (K : Env) :
    (∀ reqs : List Request, ((run K State.init reqs).users.map User.email).Nodup) ∧
    (∀ (s : State) (email password : String) (salt now : Nat),
      (∃ u ∈ s.users, u.email = email) →
        register K s email password salt now = (s, .error 400 "Email já cadastrado")) := by
  refine ⟨fun reqs => run_emails_nodup K reqs State.init (by simp [State.init]), ?_⟩
  intro s email password salt now hex
  cases hf : findUser email s.users with
  | none =>
    obtain ⟨u, hu, he⟩ := hex
    exact absurd he ((findUser_eq_none_iff email s.users).1 hf u hu)
  | some u => simp [register, hf]

/-- A duplicate registration after one successful registration. -/
theorem register_keeps_emails_unique_witness :
    ((run demoEnv State.init
        [.register "a@x.com" "pw1" 7 1000, .register "a@x.com" "pw2" 8 2000]).users.map
      User.email).Nodup ∧
    register demoEnv
        { State.init with users := [{ email := "a@x.com", passwordHash := "7$pw1", id := "1000" }] }
        "a@x.com" "pw2" 8 2000
      = ({ State.init with
            users := [{ email := "a@x.com", passwordHash := "7$pw1", id := "1000" }] },
          .error 400 "Email já cadastrado") :=
  ⟨(register_keeps_emails_unique demoEnv).1 _,
   (register_keeps_emails_unique demoEnv).2 _ _ _ _ _
     ⟨{ email := "a@x.com", passwordHash := "7$pw1", id := "1000" }, by simp, rfl⟩⟩

/-- C4 fails on the code: registering `a@x.com` with `pw1` answers
`{ ok: true }` and appends the record, but the login with the same email and
password throws `ReferenceError: JWT_SECRET is not defined` at the call of
`jwt.sign` and answers with no token; and for no libraries, state, email
and password does the login route answer with a token. -/
theorem login_throws_on_correct_password :
    register demoEnv State.init "a@x.com" "pw1" 7 1000
      = ({ State.init with
            users := [{ email := "a@x.com", passwordHash := "7$pw1", id := "1000" }] },
          .okTrue) ∧
    demoEnv.bcryptCompare "pw1" "7$pw1" = true ∧
    (login demoEnv (register demoEnv State.init "a@x.com" "pw1" 7 1000).1 "a@x.com" "pw1").2
      = .thrown "ReferenceError: JWT_SECRET is not defined" ∧
    ∀ (K : Env) (s : State) (email password t : String),
      (login K s email password).2 ≠ .token t := by
  refine ⟨by decide, by decide, by decide, ?_⟩
  intro K s email password t
  unfold login
  repeat' split
  all_goals simp_all [JWT_SECRET]

/-! ## Auth gate: claim C5 -/

/-- C5: the progress routes answer 401 without running their body whenever
the Auth Gate does not get a valid token.  With no credential (the
`Authorization` header absent or empty) both routes answer "Token ausente"
(MissingToken); with any other header, whose credential cannot verify
because the evaluation of `JWT_SECRET` throws inside the `try` (also when
the header has no second space-separated part), both answer
"Token inválido" (InvalidToken).  In both cases the state, and with it the
progress mapping, is unchanged and the response carries no progress data. -/
theorem progress_requires_valid_token (K : Env) (s : State) (id : String)
    (authorization : Option String) (audioName : String) (currentTime : Int) :
    ((authorization = none ∨ authorization = some "") →
      saveProgressRoute K s id authorization audioName currentTime
          = (s, .error 401 "Token ausente") ∧
      getProgressRoute K s id authorization = (s, .error 401 "Token ausente")) ∧
    (∀ authHeader : String, authorization = some authHeader → authHeader ≠ "" →
      saveProgressRoute K s id authorization audioName currentTime
          = (s, .error 401 "Token inválido") ∧
      getProgressRoute K s id authorization = (s, .error 401 "Token inválido")) := by
  constructor
  · rintro (h | h) <;> subst h <;> simp [saveProgressRoute, getProgressRoute, auth]
  · intro authHeader h hne
    subst h
    simp [saveProgressRoute, getProgressRoute, auth, hne, JWT_SECRET]

/-- A request without header, and one whose header is the single word `Bearer`. -/
theorem progress_requires_valid_token_witness :
    (saveProgressRoute demoEnv State.init "unknown" none "ch1.mp3" 42
        = (State.init, .error 401 "Token ausente") ∧
      getProgressRoute demoEnv State.init "unknown" none
        = (State.init, .error 401 "Token ausente")) ∧
    (saveProgressRoute demoEnv State.init "b1" (some "Bearer") "ch1.mp3" 42
        = (State.init, .error 401 "Token inválido") ∧
      getProgressRoute demoEnv State.init "b1" (some "Bearer")
        = (State.init, .error 401 "Token inválido")) :=
  ⟨(progress_requires_valid_token demoEnv State.init "unknown" none "ch1.mp3" 42).1 (Or.inl rfl),
   (progress_requires_valid_token demoEnv State.init "b1" (some "Bearer") "ch1.mp3" 42).2
     "Bearer" rfl (by decide)⟩

/-! ## Catalog: claims C6, C7 and C10 -/

/-- C6 as stated fails: two `POST /api/books` requests served at the same
clock reading produce two books with the same id. -/
theorem create_same_reading_same_id :
    ¬ ((run demoEnv State.init
          [.createBook (some "A") 1000, .createBook (some "B") 1000]).books.map Book.id).Nodup := by
  decide

/-- C6, amended: when the `POST /api/books` requests of a sequence are served
at pairwise distinct clock readings, the state reached from start-up has no
two books with the same id; and `PUT /api/books/:id` never changes the id
of any book (the ids are the same position by position). -/
theorem book_ids_unique_of_distinct_readings (K : Env) :
    (∀ reqs : List Request, (createTimes reqs).Nodup →
      ((run K State.init reqs).books.map Book.id).Nodup) ∧
    (∀ (s : State) (id : String) (bodyBookId title : Option String) (cover : Option UploadFile),
      (updateBook s id bodyBookId title cover).1.books.map Book.id = s.books.map Book.id) := by
  refine ⟨fun reqs h => ?_, updateBook_ids⟩
  rw [run_book_ids]
  simpa [State.init] using h.map (fun a b hab => toString_nat_injective hab)

/-- Two creates at different readings with an update in between. -/
theorem book_ids_unique_of_distinct_readings_witness :
    ((run demoEnv State.init
        [.createBook (some "A") 1000, .updateBook "1000" none (some "A2") none,
         .createBook (some "B") 1001]).books.map Book.id).Nodup :=
  (book_ids_unique_of_distinct_readings demoEnv).1 _ (by decide)

/-- C7 as stated fails: an update that supplies the empty string as title
returns the book with its old title. -/
theorem update_keeps_title_on_empty_string :
    ∃ b, (updateBook { State.init with books := [{ id := "1000", title := some "A", coverUrl := none }] }
            "1000" none (some "") none).2 = .book b ∧ b.title ≠ some "" :=
  ⟨{ id := "1000", title := some "A", coverUrl := none }, by decide, by decide⟩

/-- C7, amended: for a book id that the lookup finds and a non-empty title
supplied in the request, update overwrites the title: the returned record,
which is also the record that list returns for that id afterwards, has the
supplied title.  When no title is supplied, or the empty string is, the
title is unchanged. -/
theorem update_overwrites_nonempty_title (s : State) (id : String)
    (bodyBookId title : Option String) (cover : Option UploadFile) (book : Book)
    (hfind : findBook id s.books = some book) :
    ∃ b, (updateBook s id bodyBookId title cover).2 = .book b ∧
      (listBooks (updateBook s id bodyBookId title cover).1).2
        = .books (updateBook s id bodyBookId title cover).1.books ∧
      b ∈ (updateBook s id bodyBookId title cover).1.books ∧
      findBook id (updateBook s id bodyBookId title cover).1.books = some b ∧
      (∀ t, title = some t → t ≠ "" → b.title = some t) ∧
      ((title = none ∨ title = some "") → b.title = book.title) := by
  have hid := findBook_id hfind
  unfold updateBook
  simp only [hfind]
  refine ⟨_, rfl, rfl, mem_updateFirst id _ s.books book hfind,
    findBook_updateFirst id _ ?_ s.books book hfind, ?_, ?_⟩
  · cases cover <;> by_cases ht : truthyTitle title = true <;> simp [ht, hid]
  · intro t ht hne
    subst ht
    cases cover <;> simp [truthyTitle, hne]
  · rintro (ht | ht) <;> subst ht <;> cases cover <;> simp [truthyTitle]

/-- Renaming book `1000` from `A` to `B`. -/
theorem update_overwrites_nonempty_title_witness :
    ∃ b, (updateBook
            { State.init with books := [{ id := "1000", title := some "A", coverUrl := none }] }
            "1000" none (some "B") none).2 = .book b ∧ b.title = some "B" := by
  obtain ⟨b, h1, _, _, _, h5, _⟩ := update_overwrites_nonempty_title
    { State.init with books := [{ id := "1000", title := some "A", coverUrl := none }] }
    "1000" none (some "B") none { id := "1000", title := some "A", coverUrl := none }
    (by decide)
  exact ⟨b, h1, h5 "B" rfl (by decide)⟩

/-- C10 as stated fails: an update of an unknown id that carries a cover file
answers 404, yet multer has already created the storage area for that id
and written the file into it. -/
theorem update_unknown_id_stores_cover :
    updateBook State.init "does-not-exist" none (some "x")
        (some { originalname := "c.png", bytes := [1, 2], now := 1000 })
      = ({ State.init with uploads := [("does-not-exist", [("1000-c.png", [1, 2])])] },
          .error 404 "Livro não encontrado") := by
  decide

/-- C10, amended: for an id that matches no book, update answers 404
"Livro não encontrado" (BookNotFound) whatever the request carries, and the
books, users and progress data are the same before and after; when the
request carries no cover file the whole state, asset store included, is
unchanged. -/
theorem update_unknown_id (s : State) (id : String) (bodyBookId title : Option String)
    (cover : Option UploadFile) (habsent : ∀ b ∈ s.books, b.id ≠ id) :
    (updateBook s id bodyBookId title cover).2 = .error 404 "Livro não encontrado" ∧
    (updateBook s id bodyBookId title cover).1.books = s.books ∧
    (updateBook s id bodyBookId title cover).1.users = s.users ∧
    (updateBook s id bodyBookId title cover).1.progressData = s.progressData ∧
    (updateBook s id bodyBookId title cover).1.objectPrototype = s.objectPrototype ∧
    (cover = none → (updateBook s id bodyBookId title cover).1 = s) := by
  have hnone : findBook id s.books = none := (findBook_eq_none_iff id s.books).2 habsent
  unfold updateBook
  rw [hnone]
  refine ⟨rfl, rfl, rfl, rfl, rfl, ?_⟩
  rintro rfl
  rfl

/-- The scenario of the spec: `PUT /api/books/does-not-exist` with a title. -/
theorem update_unknown_id_witness :
    (updateBook { State.init with books := [{ id := "1000", title := some "A", coverUrl := none }] }
        "does-not-exist" none (some "x") none).2 = .error 404 "Livro não encontrado" :=
  (update_unknown_id
    { State.init with books := [{ id := "1000", title := some "A", coverUrl := none }] }
    "does-not-exist" none (some "x") none (by decide)).1

/-! ## Asset store: claims C8 and C9 -/

/-- C8 as stated fails: two files with the same original name that multer
names at the same clock reading get the same stored name, the second
overwrites the first, and the listing has one entry instead of two. -/
theorem upload_same_name_same_reading :
    (listAudios
        (upload State.init "b1" none
          [{ originalname := "a.mp3", bytes := [1], now := 1000 },
           { originalname := "a.mp3", bytes := [2], now := 1000 }]).1 "b1").2
      = .files [("1000-a.mp3", "/uploads/b1/1000-a.mp3")] := by
  decide

/-- C8, amended: when a request uploads N files whose pairs of clock reading
and original name are pairwise distinct to a storage area that did not
exist, the stored names are pairwise distinct and listing that storage area
returns exactly N entries, one for the stored name of each file. -/
theorem upload_then_list_distinct_names (s : State) (id : String)
    (bodyBookId : Option String) (files : List UploadFile)
    (hfresh : own (destinationId bodyBookId id) s.uploads = none)
    (hdistinct : (files.map fun f => (f.now, f.originalname)).Nodup) :
    (files.map filename).Nodup ∧
    ∃ entries,
      (listAudios (upload s id bodyBookId files).1 (destinationId bodyBookId id)).2
        = .files entries ∧
      entries.length = files.length ∧
      ∀ f ∈ files,
        (filename f, uploadUrl (destinationId bodyBookId id) (filename f)) ∈ entries := by
  have hnd := filenames_nodup files hdistinct
  refine ⟨hnd, ?_⟩
  cases hfiles : files with
  | nil => exact ⟨[], by simp [upload, storeFiles, listAudios, hfresh], rfl, by simp⟩
  | cons f rest =>
    rw [← hfiles]
    have hown := own_storeFiles bodyBookId id files s.uploads (by simp [hfiles])
    rw [hfresh] at hown
    have hkeys := keys_foldl_assign files [] hnd (by simp)
    simp only [Option.getD_none] at hown
    simp only [List.map_nil, List.nil_append] at hkeys
    refine ⟨(files.foldl (fun fs f => assign (filename f) f.bytes fs) []).map
        (fun e => (e.1, uploadUrl (destinationId bodyBookId id) e.1)),
      by simp only [upload, listAudios, hown], ?_, ?_⟩
    · rw [List.length_map, ← List.length_map _ Prod.fst, hkeys, List.length_map]
    · intro g hg
      have hmem : filename g ∈ (files.foldl (fun fs f => assign (filename f) f.bytes fs) []).map
          Prod.fst := by
        rw [hkeys]
        exact List.mem_map_of_mem _ hg
      obtain ⟨e, he, hfst⟩ := List.mem_map.1 hmem
      exact List.mem_map.2 ⟨e, he, by rw [hfst]⟩

/-- Two files with the same original name, named one millisecond apart. -/
theorem upload_then_list_distinct_names_witness :
    ∃ entries,
      (listAudios
          (upload State.init "b1" none
            [{ originalname := "a.mp3", bytes := [1], now := 1000 },
             { originalname := "a.mp3", bytes := [2], now := 1001 }]).1 "b1").2
        = .files entries ∧
      entries.length = 2 :=
  have h := (upload_then_list_distinct_names State.init "b1" none
    [{ originalname := "a.mp3", bytes := [1], now := 1000 },
     { originalname := "a.mp3", bytes := [2], now := 1001 }] (by decide) (by decide)).2
  h.elim fun entries he => ⟨entries, he.1, he.2.1⟩

/-- C9 fails on the code: an upload to `/api/books/b1/upload` whose body
carries `bookId = "b2"` writes the file into the storage area `b2`, answers
with a url under `/uploads/b1/`, and the listing of `b1` is empty, so the
returned url is not among the listed ones. -/
theorem upload_url_ignores_body_bookId :
    upload State.init "b1" (some "b2") [{ originalname := "a.mp3", bytes := [1], now := 1000 }]
      = ({ State.init with uploads := [("b2", [("1000-a.mp3", [1])])] },
          .files [("a.mp3", "/uploads/b1/1000-a.mp3")]) ∧
    (listAudios { State.init with uploads := [("b2", [("1000-a.mp3", [1])])] } "b1").2
      = .files [] := by
  decide

/-! ## Progress tracker: claims C1 and C2 -/

/-- C1 fails on the code: after registering `a@x.com` the login throws and
issues no token, and whatever `Authorization` header the save and the read
of the scenario carry, both are answered 401 by `auth`: nothing is saved
and no mapping is returned. -/
theorem save_then_get_answers_401 :
    (login demoEnv (run demoEnv State.init [.register "a@x.com" "pw1" 7 1000])
        "a@x.com" "pw1").2 = .thrown "ReferenceError: JWT_SECRET is not defined" ∧
    ∀ authorization : Option String, ∃ message,
      step demoEnv (run demoEnv State.init [.register "a@x.com" "pw1" 7 1000])
          (.saveProgress "b1" authorization "ch1.mp3" 42)
        = (run demoEnv State.init [.register "a@x.com" "pw1" 7 1000], .error 401 message) ∧
      step demoEnv (run demoEnv State.init [.register "a@x.com" "pw1" 7 1000])
          (.getProgress "b1" authorization)
        = (run demoEnv State.init [.register "a@x.com" "pw1" 7 1000], .error 401 message) := by
  refine ⟨by decide, fun authorization => ?_⟩
  obtain ⟨message, h⟩ := auth_rejects demoEnv authorization
  exact ⟨message, by simp [step, saveProgressRoute, h], by simp [step, getProgressRoute, h]⟩

/-- C2: a progress save, under whatever token, changes nothing that a later
request can observe: taking the save out of any sequence of requests leaves
the state reached, and so every later answer, the same; and a read, under
whatever token, never answers with progress data (it answers 401), so it
never returns a value saved under another token. -/
theorem progress_save_invisible_to_other_tokens (K : Env) (s : State) :
    (∀ (before after : List Request) (idA : String) (tokenA : Option String)
        (audioName : String) (currentTime : Int),
      run K s (before ++ .saveProgress idA tokenA audioName currentTime :: after)
        = run K s (before ++ after)) ∧
    (∀ (idA idB : String) (tokenA tokenB : Option String) (audioName : String)
        (currentTime : Int),
      (getProgressRoute K (saveProgressRoute K s idA tokenA audioName currentTime).1
          idB tokenB).2
        = (getProgressRoute K s idB tokenB).2) ∧
    (∀ (idB : String) (tokenB : Option String), ∃ message,
      getProgressRoute K s idB tokenB = (s, .error 401 message)) := by
  refine ⟨?_, ?_, ?_⟩
  · intro before after idA tokenA audioName currentTime
    rw [run_append, run_append, run, step_saveProgress_state]
  · intro idA idB tokenA tokenB audioName currentTime
    rw [saveProgressRoute_state]
  · intro idB tokenB
    obtain ⟨message, h⟩ := auth_rejects K tokenB
    exact ⟨message, by simp [getProgressRoute, h]⟩

end Audioabio
